import Mathlib

/-!
Shallow embedding of the event-distribution core of a smart-device
simulation: devices with a validated mutable state bag
(`base_devices.py`), the publish/subscribe event manager
(`event_system.py`), and the three device decorators
(`device_decorators.py`).  Python dicts are modelled as association
lists with distinct string keys, set registries as duplicate-free
lists, wall-clock time as an explicit natural-number parameter, and
stateful methods as explicit state-passing functions.
-/

namespace SmartHome

/-- Heterogeneous state values: booleans, numbers (Python int/float,
modelled as rationals), strings and `None`, as stored in a device's
`_state` dict. -/
inductive Val where
  | vBool (b : Bool)
  | vNum (q : ℚ)
  | vStr (s : String)
  | vNone
deriving DecidableEq

/-- A Python dict with string keys, modelled as an association list.
Well-formed dicts have duplicate-free keys. -/
abbrev StateMap := List (String × Val)

/-- Keys of a state dict. -/
def keysOf (st : StateMap) : List String := st.map Prod.fst

/-- Dict lookup (`st[k]` / `st.get(k)`): the binding of the first (in
a well-formed dict, only) pair with the given key. -/
def lookupKey (k : String) : StateMap → Option Val
  | [] => none
  | p :: rest => if p.1 = k then some p.2 else lookupKey k rest

/-- Overwrite the value at key `k` when the key is present; leave the
dict unchanged when it is absent.  This is the body of the loop in
`BaseDevice.set_state`, which guards every write by `if key in self._state`. -/
def setKey (st : StateMap) (k : String) (v : Val) : StateMap :=
  st.map fun p => if p.1 = k then (k, v) else p

/-- Apply a patch dict key by key, overwriting only keys already
present (the `for key, value in new_state.items()` loop). -/
def applyPatch (st : StateMap) (patch : StateMap) : StateMap :=
  patch.foldl (fun s p => setKey s p.1 p.2) st

namespace BaseDevice

/-- Embeds `BaseDevice.set_state`: update only keys that already exist
in the state and return `True`.  (The `except` branch returning
`False` is unreachable for string-keyed dict patches, since no
operation in the loop can raise.) -/
def set_state (st : StateMap) (patch : StateMap) : StateMap × Bool :=
  (applyPatch st patch, true)

end BaseDevice

/-- Numeric view of a value, as Python's comparison operators see it
(`bool` is an `int` subtype, so `True` compares as `1`).  Comparing a
non-numeric value against a float raises `TypeError`, hence `none`. -/
def asNum : Val → Option ℚ
  | Val.vBool b => some (if b then 1 else 0)
  | Val.vNum q => some q
  | _ => none

namespace Thermostat

/-- Embeds `Thermostat.set_state`: when the patch contains
`target_temperature`, reject the whole patch (return `False`, no
mutation) unless `min_temp <= temp <= max_temp`; otherwise defer to
`BaseDevice.set_state`.  A non-numeric temperature makes the
comparison raise `TypeError`, modelled as `none`. -/
def set_state (minT maxT : ℚ) (st : StateMap) (patch : StateMap) :
    Option (StateMap × Bool) :=
  match lookupKey "target_temperature" patch with
  | none => some (BaseDevice.set_state st patch)
  | some v =>
    match asNum v with
    | none => none
    | some temp =>
      if minT ≤ temp ∧ temp ≤ maxT then some (BaseDevice.set_state st patch)
      else some (st, false)

end Thermostat

/-- The fixed, closed enumeration of event types (`EventType` in
`interfaces/event.py`). -/
inductive EventType where
  | DEVICE_STATE_CHANGED
  | MOTION_DETECTED
  | DOOR_OPENED
  | DOOR_CLOSED
  | TEMPERATURE_THRESHOLD_REACHED
  | HUMIDITY_THRESHOLD_REACHED
  | LIGHT_LEVEL_CHANGED
  | SYSTEM_ALERT
  | USER_PRESENCE
  | USER_ABSENCE
  | SCHEDULED_EVENT
deriving DecidableEq

/-- The result of Python's `list(EventType)`. -/
def allEventTypes : List EventType :=
  [EventType.DEVICE_STATE_CHANGED, EventType.MOTION_DETECTED,
   EventType.DOOR_OPENED, EventType.DOOR_CLOSED,
   EventType.TEMPERATURE_THRESHOLD_REACHED,
   EventType.HUMIDITY_THRESHOLD_REACHED, EventType.LIGHT_LEVEL_CHANGED,
   EventType.SYSTEM_ALERT, EventType.USER_PRESENCE, EventType.USER_ABSENCE,
   EventType.SCHEDULED_EVENT]

/-- Payload values that appear in an event's `data` dict: strings and
nested state dicts. -/
inductive EData where
  | eStr (s : String)
  | eMap (m : StateMap)
deriving DecidableEq

/-- The `Event` dataclass after `__post_init__` has run: an absent
timestamp is replaced by the creation time and an absent data dict by
the empty dict (see `Event.make`). -/
structure Event where
  event_type : EventType
  source : String
  timestamp : ℕ
  data : List (String × EData)
deriving DecidableEq

/-- Event construction with `__post_init__` defaulting: `timestamp`
defaults to `datetime.now()` (passed explicitly as `now`) and `data`
to the empty dict. -/
def Event.make (t : EventType) (src : String) (ts : Option ℕ)
    (d : Option (List (String × EData))) (now : ℕ) : Event :=
  ⟨t, src, ts.getD now, d.getD []⟩

/-- A subscriber, identified (as Python sets identify objects) by an
id, together with the list its `get_subscribed_event_types` returns. -/
structure Subscriber where
  sid : ℕ
  types : List EventType
deriving DecidableEq

/-- The manager's `_subscribers` mapping.  Its construction gives every
event type an entry, so the mapping is total; each Python `set` of
subscribers is modelled as a duplicate-free list in insertion order. -/
abbrev Registry := EventType → List ℕ

/-- Python `set.add`: a no-op when the element is already present. -/
def setAdd (l : List ℕ) (x : ℕ) : List ℕ :=
  if x ∈ l then l else l ++ [x]

namespace EventManager

/-- Embeds `EventManager.subscribe`: add the subscriber to the registry
set of every event type it declares interest in. -/
def subscribe (m : Registry) (s : Subscriber) : Registry :=
  fun t => if t ∈ s.types then setAdd (m t) s.sid else m t

/-- Embeds `EventManager.unsubscribe`: remove the subscriber from every
type's registry set (`remove` guarded by membership, so never an
error). -/
def unsubscribe (m : Registry) (i : ℕ) : Registry :=
  fun t => (m t).erase i

/-- Embeds `EventManager.notify` in the common case where no listener
mutates the registry: the sequence of listeners whose `update` is
invoked, namely the registry set for the event's type, in iteration
order. -/
def notify (m : Registry) (e : Event) : List ℕ :=
  m e.event_type

end EventManager

/-- What a listener's `update` does to the event manager, for the
reentrancy analysis of `notify`: nothing, an `unsubscribe`, or a
`subscribe`. -/
inductive UpdAct where
  | actNone
  | actUnsub (i : ℕ)
  | actSub (s : Subscriber)

/-- Assignment of an update behaviour to each listener id. -/
abbrev ListenerEnv := ℕ → UpdAct

/-- Effect of listener `i`'s `update` call on the registry. -/
def applyAct (env : ListenerEnv) (i : ℕ) (m : Registry) : Registry :=
  match env i with
  | UpdAct.actNone => m
  | UpdAct.actUnsub j => EventManager.unsubscribe m j
  | UpdAct.actSub s => EventManager.subscribe m s

/-- One step at a time over the listeners fetched so far.  The source's
`for subscriber in subscribers` iterates the registry's live set
object (no copy is taken), and a CPython set iterator raises
`RuntimeError` at the next element fetch whenever the set's size has
changed since the iterator was created; the `Bool` result is `false`
exactly when the loop aborts with that error.  (Size-preserving
mutations, which CPython would let proceed over the mutated storage,
do not occur in the scenarios analysed here.) -/
def notifyLiveGo (env : ListenerEnv) (t : EventType) (n0 : ℕ) :
    List ℕ → Registry → List ℕ → List ℕ × Registry × Bool
  | [], m, acc =>
    if (m t).length ≠ n0 then (acc.reverse, m, false)
    else (acc.reverse, m, true)
  | x :: rest, m, acc =>
    if (m t).length ≠ n0 then (acc.reverse, m, false)
    else notifyLiveGo env t n0 rest (applyAct env x m) (x :: acc)

/-- Embeds `EventManager.notify` with reentrant listeners: iterate the
live registry set for the event's type, applying each dispatched
listener's registry mutation, with CPython's size-change check.
Returns the listeners actually dispatched, the final registry, and
whether the loop completed without `RuntimeError`. -/
def EventManager.notifyLive (env : ListenerEnv) (m : Registry)
    (t : EventType) : List ℕ × Registry × Bool :=
  notifyLiveGo env t (m t).length (m t) m []

/-- Modelled from the spec: `notify` "must use a registered snapshot of
the listener set" — dispatch iterates a snapshot taken at the start of
the call, so every listener registered at call time is dispatched,
unaffected by registry mutations made by earlier listeners' updates,
and no iteration error can occur. -/
def notifySnapshot (env : ListenerEnv) (m : Registry) (t : EventType) :
    List ℕ × Registry × Bool :=
  (m t, (m t).foldl (fun mm x => applyAct env x mm) m, true)

namespace LoggingEventSubscriber

/-- Embeds the constructor line
`self._event_types = event_types or list(EventType)`: both `None` and
the empty list are falsy, so either is replaced by the full
enumeration. -/
def initEventTypes (ets : Option (List EventType)) : List EventType :=
  match ets with
  | none => allEventTypes
  | some l => if l.isEmpty then allEventTypes else l

end LoggingEventSubscriber

/-- The fixed enumeration of device types (`DeviceType` in
`interfaces/device.py`). -/
inductive DeviceType where
  | LIGHT
  | THERMOSTAT
  | LOCK
  | CAMERA
  | SPEAKER
  | SENSOR
deriving DecidableEq

/-- The fixed enumeration of device capabilities (`DeviceCapability`
in `interfaces/device.py`). -/
inductive DeviceCapability where
  | POWER
  | BRIGHTNESS
  | COLOR
  | TEMPERATURE
  | MOTION
  | AUDIO
  | VIDEO
  | LOCK_UNLOCK
deriving DecidableEq

/-- The `Device` interface as the decorators see their wrapped
`self._device`: a state type `σ` together with the interface methods,
with `set_state` in explicit state-passing form. -/
structure InnerDevice (σ : Type) where
  get_id : σ → String
  get_name : σ → String
  get_device_type : σ → DeviceType
  get_capabilities : σ → List DeviceCapability
  get_state : σ → StateMap
  set_state : σ → StateMap → σ × Bool

/-- A `BaseDevice`-style wrapped device whose state is the bare state
dict: `get_state` returns it (a copy in Python, the value itself
here) and `set_state` is `BaseDevice.set_state`. -/
def baseInner (devId devName : String) (dtype : DeviceType)
    (caps : List DeviceCapability) : InnerDevice StateMap :=
  { get_id := fun _ => devId
    get_name := fun _ => devName
    get_device_type := fun _ => dtype
    get_capabilities := fun _ => caps
    get_state := id
    set_state := BaseDevice.set_state }

/-- A scheduled action held by the timer decorator: the dict
`⦃time, state⦄` appended by `schedule_action`. -/
structure SchedEntry where
  time : ℕ
  state : StateMap
deriving DecidableEq

/-- State of a `TimerDecorator`: the wrapped device plus the
`_schedules` list. -/
structure TimerSt (σ : Type) where
  inner : σ
  schedules : List SchedEntry

namespace TimerDecorator

/-- Forwarded `get_id`. -/
def get_id (dev : InnerDevice σ) (st : TimerSt σ) : String :=
  dev.get_id st.inner

/-- Embeds `TimerDecorator.get_name`: the inner name with the
literal suffix. -/
def get_name (dev : InnerDevice σ) (st : TimerSt σ) : String :=
  dev.get_name st.inner ++ " (with Timer)"

/-- Forwarded `get_device_type`. -/
def get_device_type (dev : InnerDevice σ) (st : TimerSt σ) : DeviceType :=
  dev.get_device_type st.inner

/-- Forwarded `get_capabilities`. -/
def get_capabilities (dev : InnerDevice σ) (st : TimerSt σ) :
    List DeviceCapability :=
  dev.get_capabilities st.inner

/-- Embeds `TimerDecorator.schedule_action`: reject with `False` when
`time <= datetime.now()`, otherwise append the entry and return
`True`.  The call-time clock is the explicit `now`. -/
def schedule_action (now : ℕ) (scheds : List SchedEntry) (time : ℕ)
    (patch : StateMap) : List SchedEntry × Bool :=
  if time ≤ now then (scheds, false)
  else (scheds ++ [⟨time, patch⟩], true)

/-- Embeds `TimerDecorator.cancel_all_schedules`. -/
def cancel_all_schedules : List SchedEntry := []

/-- Embeds `TimerDecorator._get_next_scheduled_action`: `None` when
there are no schedules or none lies strictly in the future; otherwise
the future entry with minimal time (Python's `min` keeps the earliest
listed entry on ties, as the fold with a strict comparison does). -/
def next_scheduled_action (now : ℕ) (scheds : List SchedEntry) :
    Option SchedEntry :=
  match scheds with
  | [] => none
  | _ =>
    match scheds.filter (fun s => now < s.time) with
    | [] => none
    | x :: xs => some (xs.foldl (fun b s => if s.time < b.time then s else b) x)

/-- The dict returned by `TimerDecorator.get_state`: the inner state
plus the two added keys `has_schedules` and `next_scheduled_action`,
kept as separate fields because their values are a boolean and a
nested dict. -/
structure View where
  base : StateMap
  has_schedules : Bool
  next_action : Option SchedEntry
deriving DecidableEq

/-- Embeds `TimerDecorator.get_state`: `has_schedules` is
`len(self._schedules) > 0` and `next_scheduled_action` is computed by
`_get_next_scheduled_action`; the schedules list itself is not
modified. -/
def get_state (dev : InnerDevice σ) (now : ℕ) (st : TimerSt σ) : View :=
  ⟨dev.get_state st.inner, decide (0 < st.schedules.length),
   next_scheduled_action now st.schedules⟩

end TimerDecorator

/-- One changed key in a history record: the entry
`key: ⦃from: old, to: new⦄` of the `changes` dict. -/
structure ChangeRec where
  key : String
  fromV : Val
  toV : Val
deriving DecidableEq

/-- One history record `⦃timestamp, changes⦄`. -/
structure HistEntry where
  timestamp : ℕ
  changes : List ChangeRec
deriving DecidableEq

/-- Python's `==` on state values: `bool` is an `int` subtype, so
`False == 0` and `True == 1`; numbers compare numerically, strings by
content, `None` only to itself, and every other cross-kind comparison
is unequal. -/
def pyEq : Val → Val → Bool
  | Val.vBool b, Val.vBool b2 => decide (b = b2)
  | Val.vBool b, Val.vNum q => decide ((if b then (1 : ℚ) else 0) = q)
  | Val.vNum q, Val.vBool b => decide (q = (if b then (1 : ℚ) else 0))
  | Val.vNum q, Val.vNum q2 => decide (q = q2)
  | Val.vStr s, Val.vStr s2 => decide (s = s2)
  | Val.vNone, Val.vNone => true
  | _, _ => false

/-- The per-key diff of `LoggingDecorator._add_history_entry`: keys of
the patch that are present in the old state with a different value,
where `old_state[key] != new_value` is Python inequality (`pyEq`). -/
def diffChanges (old patch : StateMap) : List ChangeRec :=
  patch.filterMap fun p =>
    match lookupKey p.1 old with
    | some ov => if pyEq ov p.2 then none else some ⟨p.1, ov, p.2⟩
    | none => none

/-- Python's tail slice `l[-n:]` for a nonnegative `n`: the last `n`
elements — except that `-0` is `0`, so `n = 0` yields the whole
list. -/
def pyTail (n : ℕ) (l : List HistEntry) : List HistEntry :=
  if n = 0 then l else l.drop (l.length - n)

/-- Append a history record and enforce the size limit as the source
does: `if len(h) > max: h = h[-max:]`. -/
def pushHist (maxH : ℕ) (h : List HistEntry) (e : HistEntry) : List HistEntry :=
  let h2 := h ++ [e]
  if maxH < h2.length then pyTail maxH h2 else h2

/-- State of a `LoggingDecorator`: the wrapped device plus the
`_history` list. -/
structure LogSt (σ : Type) where
  inner : σ
  history : List HistEntry

namespace LoggingDecorator

/-- Forwarded `get_id`. -/
def get_id (dev : InnerDevice σ) (st : LogSt σ) : String :=
  dev.get_id st.inner

/-- Embeds `LoggingDecorator.get_name`. -/
def get_name (dev : InnerDevice σ) (st : LogSt σ) : String :=
  dev.get_name st.inner ++ " (with Logging)"

/-- Forwarded `get_device_type`. -/
def get_device_type (dev : InnerDevice σ) (st : LogSt σ) : DeviceType :=
  dev.get_device_type st.inner

/-- Forwarded `get_capabilities`. -/
def get_capabilities (dev : InnerDevice σ) (st : LogSt σ) :
    List DeviceCapability :=
  dev.get_capabilities st.inner

/-- Embeds `LoggingDecorator._add_history_entry`: record the diff of
old state against the patch, only when something actually changed,
then enforce the bound. -/
def add_history_entry (maxH now : ℕ) (hist : List HistEntry)
    (old patch : StateMap) : List HistEntry :=
  let ch := diffChanges old patch
  if ch.isEmpty then hist else pushHist maxH hist ⟨now, ch⟩

/-- Embeds `LoggingDecorator.set_state`: snapshot the inner state,
call through, and on success record the change; the inner call's
result is returned either way. -/
def set_state (dev : InnerDevice σ) (maxH now : ℕ) (st : LogSt σ)
    (patch : StateMap) : LogSt σ × Bool :=
  let old := dev.get_state st.inner
  let r := dev.set_state st.inner patch
  if r.2 then (⟨r.1, add_history_entry maxH now st.history old patch⟩, r.2)
  else (⟨r.1, st.history⟩, r.2)

/-- Embeds `LoggingDecorator.get_history` (a copy in Python). -/
def get_history (st : LogSt σ) : List HistEntry := st.history

end LoggingDecorator

namespace NotificationDecorator

/-- Embeds `NotificationDecorator.get_name`. -/
def get_name (dev : InnerDevice σ) (s : σ) : String :=
  dev.get_name s ++ " (with Notifications)"

/-- Forwarded `get_id`. -/
def get_id (dev : InnerDevice σ) (s : σ) : String :=
  dev.get_id s

/-- Forwarded `get_device_type`. -/
def get_device_type (dev : InnerDevice σ) (s : σ) : DeviceType :=
  dev.get_device_type s

/-- Forwarded `get_capabilities`. -/
def get_capabilities (dev : InnerDevice σ) (s : σ) : List DeviceCapability :=
  dev.get_capabilities s

/-- String form of a device type, Python's `str(DeviceType.X)`. -/
def deviceTypeStr : DeviceType → String
  | DeviceType.LIGHT => "DeviceType.LIGHT"
  | DeviceType.THERMOSTAT => "DeviceType.THERMOSTAT"
  | DeviceType.LOCK => "DeviceType.LOCK"
  | DeviceType.CAMERA => "DeviceType.CAMERA"
  | DeviceType.SPEAKER => "DeviceType.SPEAKER"
  | DeviceType.SENSOR => "DeviceType.SENSOR"

/-- Embeds `NotificationDecorator._publish_state_change_event`: the
single event handed to the publisher, with no explicit timestamp (so
`__post_init__` stamps it with the current time). -/
def publish_state_change_event (dev : InnerDevice σ) (s : σ) (now : ℕ)
    (old new : StateMap) : Event :=
  Event.make EventType.DEVICE_STATE_CHANGED (dev.get_id s) none
    (some [("device_name", EData.eStr (get_name dev s)),
           ("device_type", EData.eStr (deviceTypeStr (dev.get_device_type s))),
           ("old_state", EData.eMap old),
           ("new_state", EData.eMap new)]) now

/-- Embeds the `should_notify` logic of `NotificationDecorator.set_state`:
`True` unless a criteria function was supplied, in which case its
verdict on (old state, new state). -/
def should_notify (crit : Option (StateMap → StateMap → Bool))
    (old new : StateMap) : Bool :=
  match crit with
  | none => true
  | some c => c old new

/-- Embeds `NotificationDecorator.set_state`: snapshot the inner
state, call through; on success evaluate the optional criteria on
(old state, fresh inner state), defaulting to always-notify, and
publish one `DEVICE_STATE_CHANGED` event when it passes.  The third
component lists the events handed to `self._publisher.notify`. -/
def set_state (dev : InnerDevice σ) (crit : Option (StateMap → StateMap → Bool))
    (now : ℕ) (s : σ) (patch : StateMap) : σ × Bool × List Event :=
  let old := dev.get_state s
  let r := dev.set_state s patch
  if r.2 then
    if should_notify crit old (dev.get_state r.1) then
      (r.1, r.2, [publish_state_change_event dev r.1 now old (dev.get_state r.1)])
    else (r.1, r.2, [])
  else (r.1, r.2, [])

end NotificationDecorator

/-- The `_state` dict a `Thermostat` is constructed with. -/
def thermostatDefaultState : StateMap :=
  [("power", Val.vBool false),
   ("current_temperature", Val.vNum 21),
   ("target_temperature", Val.vNum 21),
   ("mode", Val.vStr "off"),
   ("humidity", Val.vNum 50)]

theorem keysOf_setKey (st : StateMap) (k : String) (v : Val) :
    keysOf (setKey st k v) = keysOf st := by
  simp only [keysOf, setKey, List.map_map]
  refine List.map_congr_left ?_
  intro p hp
  by_cases h : p.1 = k
  · simp [Function.comp, h]
  · simp [Function.comp, h]

theorem setKey_of_not_mem (st : StateMap) (k : String) (v : Val)
    (h : k ∉ keysOf st) : setKey st k v = st := by
  induction st with
  | nil => rfl
  | cons p rest ih =>
    simp only [keysOf, List.map_cons, List.mem_cons, not_or] at h
    simp only [setKey, List.map_cons] at ih ⊢
    rw [if_neg (fun hh => h.1 hh.symm), ih (by simpa [keysOf] using h.2)]

theorem keysOf_applyPatch (patch st : StateMap) :
    keysOf (applyPatch st patch) = keysOf st := by
  induction patch generalizing st with
  | nil => rfl
  | cons p rest ih =>
    simp only [applyPatch, List.foldl_cons] at ih ⊢
    rw [ih, keysOf_setKey]

theorem applyPatch_of_disjoint (patch st : StateMap)
    (h : ∀ p ∈ patch, p.1 ∉ keysOf st) : applyPatch st patch = st := by
  induction patch generalizing st with
  | nil => rfl
  | cons p rest ih =>
    simp only [applyPatch, List.foldl_cons] at ih ⊢
    rw [setKey_of_not_mem st p.1 p.2 (h p (List.mem_cons_self p rest))]
    exact ih st fun q hq => h q (List.mem_cons_of_mem p hq)

/-- Claim C1: for every base entity and patch, `set_state` overwrites
only keys already present and never introduces a new key: the key set
of the state is preserved by `BaseDevice.set_state` and by the
`Thermostat` override, a patch whose keys are all absent from the
current state leaves the state unchanged, and `BaseDevice.set_state`
returns `true`. -/
theorem C1_closed_state_invariant :
    (∀ st patch : StateMap,
        keysOf (BaseDevice.set_state st patch).1 = keysOf st) ∧
    (∀ minT maxT : ℚ, ∀ st patch : StateMap, ∀ r : StateMap × Bool,
        Thermostat.set_state minT maxT st patch = some r →
        keysOf r.1 = keysOf st) ∧
    (∀ st patch : StateMap, (∀ p ∈ patch, p.1 ∉ keysOf st) →
        BaseDevice.set_state st patch = (st, true)) := by
  refine ⟨fun st patch => keysOf_applyPatch patch st, ?_, ?_⟩
  · intro minT maxT st patch r hr
    unfold Thermostat.set_state at hr
    split at hr
    · injection hr with h2
      rw [← h2]
      exact keysOf_applyPatch patch st
    · split at hr
      · exact Option.noConfusion hr
      · split at hr
        · injection hr with h2
          rw [← h2]
          exact keysOf_applyPatch patch st
        · injection hr with h2
          rw [← h2]
  · intro st patch h
    unfold BaseDevice.set_state
    rw [applyPatch_of_disjoint patch st h]

/-- Witness for C1 at a concrete input: writing an unknown key to a
default base state is silently ignored and returns `true`. -/
theorem C1_closed_state_invariant_witness :
    BaseDevice.set_state [("power", Val.vBool false)]
        [("unknown_key", Val.vNum 5)] = ([("power", Val.vBool false)], true) :=
  C1_closed_state_invariant.2.2 _ _ (by decide)

/-- Claim C2: the thermostat rejects a patch whose
`target_temperature` lies strictly outside `[min_temp, max_temp]`
with `false` and applies no part of it, while a value inside the
inclusive range (in particular either bound) is accepted and the
whole patch applied. -/
theorem C2_thermostat_bounds (minT maxT : ℚ) (st patch : StateMap) (q : ℚ)
    (hlk : lookupKey "target_temperature" patch = some (Val.vNum q)) :
    (q < minT ∨ maxT < q →
      Thermostat.set_state minT maxT st patch = some (st, false)) ∧
    (minT ≤ q → q ≤ maxT →
      Thermostat.set_state minT maxT st patch
        = some (applyPatch st patch, true)) := by
  have hred : Thermostat.set_state minT maxT st patch
      = if minT ≤ q ∧ q ≤ maxT then some (BaseDevice.set_state st patch)
        else some (st, false) := by
    unfold Thermostat.set_state
    rw [hlk]
    rfl
  constructor
  · intro hout
    rw [hred, if_neg]
    rcases hout with h | h
    · exact fun hc => absurd hc.1 (not_le.mpr h)
    · exact fun hc => absurd hc.2 (not_le.mpr h)
  · intro h1 h2
    rw [hred, if_pos ⟨h1, h2⟩]
    rfl

/-- Witness for C2 at the default thermostat configuration
`[10, 32]`: `9` and `33` are rejected without mutation, `10` and `32`
are accepted. -/
theorem C2_thermostat_bounds_witness :
    Thermostat.set_state 10 32 thermostatDefaultState
        [("target_temperature", Val.vNum 9)]
      = some (thermostatDefaultState, false) ∧
    Thermostat.set_state 10 32 thermostatDefaultState
        [("target_temperature", Val.vNum 33)]
      = some (thermostatDefaultState, false) ∧
    Thermostat.set_state 10 32 thermostatDefaultState
        [("target_temperature", Val.vNum 10)]
      = some (applyPatch thermostatDefaultState
          [("target_temperature", Val.vNum 10)], true) ∧
    Thermostat.set_state 10 32 thermostatDefaultState
        [("target_temperature", Val.vNum 32)]
      = some (applyPatch thermostatDefaultState
          [("target_temperature", Val.vNum 32)], true) :=
  ⟨(C2_thermostat_bounds 10 32 _ _ 9 (by decide)).1 (Or.inl (by decide)),
   (C2_thermostat_bounds 10 32 _ _ 33 (by decide)).1 (Or.inr (by decide)),
   (C2_thermostat_bounds 10 32 _ _ 10 (by decide)).2 (by decide) (by decide),
   (C2_thermostat_bounds 10 32 _ _ 32 (by decide)).2 (by decide) (by decide)⟩

theorem string_append_ne (s t : String) (h : t.length ≠ 0) : s ++ t ≠ s := by
  intro he
  have h2 := congrArg String.length he
  rw [String.length_append] at h2
  omega

/-- Claim C10: each single decorator changes `get_name` by appending
its own literal suffix (so `get_name` is not preserved), while
`get_id`, `get_device_type` and `get_capabilities` are forwarded
unchanged. -/
theorem C10_decorator_get_name (σ : Type) (dev : InnerDevice σ)
    (ts : TimerSt σ) (ls : LogSt σ) (s : σ) :
    TimerDecorator.get_name dev ts
        = dev.get_name ts.inner ++ " (with Timer)" ∧
    TimerDecorator.get_name dev ts ≠ dev.get_name ts.inner ∧
    LoggingDecorator.get_name dev ls
        = dev.get_name ls.inner ++ " (with Logging)" ∧
    LoggingDecorator.get_name dev ls ≠ dev.get_name ls.inner ∧
    NotificationDecorator.get_name dev s
        = dev.get_name s ++ " (with Notifications)" ∧
    NotificationDecorator.get_name dev s ≠ dev.get_name s ∧
    TimerDecorator.get_id dev ts = dev.get_id ts.inner ∧
    TimerDecorator.get_device_type dev ts = dev.get_device_type ts.inner ∧
    TimerDecorator.get_capabilities dev ts = dev.get_capabilities ts.inner ∧
    LoggingDecorator.get_id dev ls = dev.get_id ls.inner ∧
    LoggingDecorator.get_device_type dev ls = dev.get_device_type ls.inner ∧
    LoggingDecorator.get_capabilities dev ls = dev.get_capabilities ls.inner ∧
    NotificationDecorator.get_id dev s = dev.get_id s ∧
    NotificationDecorator.get_device_type dev s = dev.get_device_type s ∧
    NotificationDecorator.get_capabilities dev s = dev.get_capabilities s :=
  ⟨rfl, string_append_ne _ _ (by decide), rfl,
   string_append_ne _ _ (by decide), rfl, string_append_ne _ _ (by decide),
   rfl, rfl, rfl, rfl, rfl, rfl, rfl, rfl, rfl⟩

theorem mem_setAdd_self (l : List ℕ) (x : ℕ) : x ∈ setAdd l x := by
  unfold setAdd
  split
  · assumption
  · simp

theorem setAdd_idem (l : List ℕ) (x : ℕ) : setAdd (setAdd l x) x = setAdd l x := by
  show (if x ∈ setAdd l x then setAdd l x else setAdd l x ++ [x]) = setAdd l x
  rw [if_pos (mem_setAdd_self l x)]

/-- Claim C4: a listener subscribed with declared interest in a set of
types containing `A` but not `C` is dispatched to zero times by a
notify of type `C` and exactly once by a notify of type `A`, and
subscribing it a second time is a no-op (set semantics). -/
theorem C4_at_most_once_delivery (m : Registry) (s : Subscriber)
    (A C : EventType) (eA eC : Event)
    (hfresh : ∀ t, s.sid ∉ m t) (hA : A ∈ s.types) (hC : C ∉ s.types)
    (heA : eA.event_type = A) (heC : eC.event_type = C) :
    List.count s.sid (EventManager.notify (EventManager.subscribe m s) eC) = 0 ∧
    List.count s.sid (EventManager.notify (EventManager.subscribe m s) eA) = 1 ∧
    EventManager.subscribe (EventManager.subscribe m s) s
      = EventManager.subscribe m s := by
  refine ⟨?_, ?_, ?_⟩
  · unfold EventManager.notify EventManager.subscribe
    rw [heC, if_neg hC]
    exact List.count_eq_zero.mpr (hfresh C)
  · unfold EventManager.notify EventManager.subscribe
    rw [heA, if_pos hA]
    unfold setAdd
    rw [if_neg (hfresh A)]
    simp [List.count_eq_zero.mpr (hfresh A)]
  · funext t
    show (if t ∈ s.types then setAdd (EventManager.subscribe m s t) s.sid
          else EventManager.subscribe m s t) = EventManager.subscribe m s t
    by_cases ht : t ∈ s.types
    · rw [if_pos ht]
      show setAdd (if t ∈ s.types then setAdd (m t) s.sid else m t) s.sid = _
      rw [if_pos ht, setAdd_idem]
      show setAdd (m t) s.sid = if t ∈ s.types then setAdd (m t) s.sid else m t
      rw [if_pos ht]
    · rw [if_neg ht]

/-- Witness for C4: a fresh listener `1` interested in motion and
door-opened events, in an empty registry; a system alert reaches it
zero times, a motion event exactly once. -/
theorem C4_at_most_once_delivery_witness :
    List.count 1 (EventManager.notify
      (EventManager.subscribe (fun _ => [])
        ⟨1, [EventType.MOTION_DETECTED, EventType.DOOR_OPENED]⟩)
      ⟨EventType.SYSTEM_ALERT, "sys", 0, []⟩) = 0 ∧
    List.count 1 (EventManager.notify
      (EventManager.subscribe (fun _ => [])
        ⟨1, [EventType.MOTION_DETECTED, EventType.DOOR_OPENED]⟩)
      ⟨EventType.MOTION_DETECTED, "cam", 0, []⟩) = 1 :=
  ⟨(C4_at_most_once_delivery (fun _ => [])
      ⟨1, [EventType.MOTION_DETECTED, EventType.DOOR_OPENED]⟩
      EventType.MOTION_DETECTED EventType.SYSTEM_ALERT
      ⟨EventType.MOTION_DETECTED, "cam", 0, []⟩
      ⟨EventType.SYSTEM_ALERT, "sys", 0, []⟩
      (fun _ => List.not_mem_nil 1) (by decide) (by decide) rfl rfl).1,
   (C4_at_most_once_delivery (fun _ => [])
      ⟨1, [EventType.MOTION_DETECTED, EventType.DOOR_OPENED]⟩
      EventType.MOTION_DETECTED EventType.SYSTEM_ALERT
      ⟨EventType.MOTION_DETECTED, "cam", 0, []⟩
      ⟨EventType.SYSTEM_ALERT, "sys", 0, []⟩
      (fun _ => List.not_mem_nil 1) (by decide) (by decide) rfl rfl).2.1⟩

/-- Listener environment for the reentrancy scenario: listener 1's
`update` unsubscribes listener 2; everyone else's `update` leaves the
manager alone. -/
def liveEnvC3 : ListenerEnv :=
  fun i => if i = 1 then UpdAct.actUnsub 2 else UpdAct.actNone

/-- Registry with listeners 1 and 2 subscribed for motion events. -/
def registryC3 : Registry :=
  fun t => if t = EventType.MOTION_DETECTED then [1, 2] else []

/-- Claim C3 (code bug): the source's `notify` iterates the registry's
live set (`self._subscribers.get(...)` returns the set itself, no
snapshot is taken).  In the scenario where listeners 1 and 2 are
subscribed to motion events and listener 1's `update` unsubscribes
listener 2, live iteration dispatches only to listener 1 and then
aborts with CPython's `RuntimeError` (completion flag `false`), while
the snapshot dispatch the spec mandates reaches both listeners; the
scenario's registry is reachable by two `subscribe` calls on a fresh
manager. -/
theorem C3_notify_live_iteration_bug :
    (EventManager.notifyLive liveEnvC3 registryC3 EventType.MOTION_DETECTED).1
      = [1] ∧
    (EventManager.notifyLive liveEnvC3 registryC3 EventType.MOTION_DETECTED).2.2
      = false ∧
    (notifySnapshot liveEnvC3 registryC3 EventType.MOTION_DETECTED).1
      = [1, 2] ∧
    EventManager.subscribe
      (EventManager.subscribe (fun _ => []) ⟨1, [EventType.MOTION_DETECTED]⟩)
      ⟨2, [EventType.MOTION_DETECTED]⟩ EventType.MOTION_DETECTED
      = registryC3 EventType.MOTION_DETECTED := by
  refine ⟨by decide, by decide, by decide, by decide⟩

/-- Claim C9: constructing the logging listener with an explicitly
supplied empty list of event types makes it declare interest in all
known event types (same as passing no list), so subscribing it
registers it for every event type. -/
theorem C9_empty_event_types_means_all :
    LoggingEventSubscriber.initEventTypes (some []) = allEventTypes ∧
    LoggingEventSubscriber.initEventTypes none = allEventTypes ∧
    ∀ (m : Registry) (sid : ℕ) (t : EventType),
      sid ∈ EventManager.subscribe m
        ⟨sid, LoggingEventSubscriber.initEventTypes (some [])⟩ t := by
  refine ⟨rfl, rfl, ?_⟩
  intro m sid t
  have hmem : t ∈ (Subscriber.mk sid
      (LoggingEventSubscriber.initEventTypes (some []))).types := by
    show t ∈ allEventTypes
    cases t <;> decide
  unfold EventManager.subscribe
  rw [if_pos hmem]
  exact mem_setAdd_self _ _

theorem lookupKey_eq_none (st : StateMap) (k : String) (h : k ∉ keysOf st) :
    lookupKey k st = none := by
  induction st with
  | nil => rfl
  | cons p rest ih =>
    simp only [keysOf, List.map_cons, List.mem_cons, not_or] at h
    show (if p.1 = k then some p.2 else lookupKey k rest) = none
    rw [if_neg fun hh => h.1 hh.symm]
    exact ih (by simpa [keysOf] using h.2)

theorem lookupKey_setKey_self (st : StateMap) (k : String) (v : Val)
    (h : k ∈ keysOf st) : lookupKey k (setKey st k v) = some v := by
  induction st with
  | nil => simp [keysOf] at h
  | cons p rest ih =>
    by_cases hp : p.1 = k
    · show lookupKey k ((if p.1 = k then (k, v) else p) :: setKey rest k v)
        = some v
      rw [if_pos hp]
      show (if k = k then some v else lookupKey k (setKey rest k v)) = some v
      rw [if_pos rfl]
    · show lookupKey k ((if p.1 = k then (k, v) else p) :: setKey rest k v)
        = some v
      rw [if_neg hp]
      show (if p.1 = k then some p.2 else lookupKey k (setKey rest k v)) = some v
      rw [if_neg hp]
      refine ih ?_
      simp only [keysOf, List.map_cons, List.mem_cons] at h
      rcases h with h | h
      · exact absurd h.symm hp
      · exact h

theorem lookupKey_setKey_ne (st : StateMap) (k k2 : String) (v : Val)
    (h : k2 ≠ k) : lookupKey k2 (setKey st k v) = lookupKey k2 st := by
  induction st with
  | nil => rfl
  | cons p rest ih =>
    by_cases hp : p.1 = k
    · show lookupKey k2 ((if p.1 = k then (k, v) else p) :: setKey rest k v)
        = lookupKey k2 (p :: rest)
      rw [if_pos hp]
      show (if k = k2 then some v else lookupKey k2 (setKey rest k v))
        = if p.1 = k2 then some p.2 else lookupKey k2 rest
      rw [if_neg fun hh => h hh.symm, if_neg (by rw [hp]; exact fun hh => h hh.symm),
          ih]
    · show lookupKey k2 ((if p.1 = k then (k, v) else p) :: setKey rest k v)
        = lookupKey k2 (p :: rest)
      rw [if_neg hp]
      show (if p.1 = k2 then some p.2 else lookupKey k2 (setKey rest k v))
        = if p.1 = k2 then some p.2 else lookupKey k2 rest
      by_cases h2 : p.1 = k2
      · rw [if_pos h2, if_pos h2]
      · rw [if_neg h2, if_neg h2, ih]

theorem lookupKey_applyPatch_not_mem (patch st : StateMap) (k : String)
    (h : k ∉ keysOf patch) :
    lookupKey k (applyPatch st patch) = lookupKey k st := by
  induction patch generalizing st with
  | nil => rfl
  | cons p rest ih =>
    simp only [keysOf, List.map_cons, List.mem_cons, not_or] at h
    calc lookupKey k (applyPatch st (p :: rest))
        = lookupKey k (applyPatch (setKey st p.1 p.2) rest) := rfl
      _ = lookupKey k (setKey st p.1 p.2) :=
          ih _ (by simpa [keysOf] using h.2)
      _ = lookupKey k st := lookupKey_setKey_ne st p.1 k p.2 h.1

theorem lookupKey_applyPatch_mem (patch st : StateMap)
    (hnd : (keysOf patch).Nodup) (p : String × Val) (hp : p ∈ patch)
    (hk : p.1 ∈ keysOf st) :
    lookupKey p.1 (applyPatch st patch) = some p.2 := by
  induction patch generalizing st with
  | nil => cases hp
  | cons q rest ih =>
    have h0 : applyPatch st (q :: rest) = applyPatch (setKey st q.1 q.2) rest :=
      rfl
    rw [h0]
    simp only [keysOf, List.map_cons, List.nodup_cons] at hnd
    rcases List.mem_cons.mp hp with rfl | hp2
    · rw [lookupKey_applyPatch_not_mem rest _ _ hnd.1]
      exact lookupKey_setKey_self st p.1 p.2 hk
    · exact ih (setKey st q.1 q.2) hnd.2 hp2 (by rw [keysOf_setKey]; exact hk)

theorem pyEq_refl (v : Val) : pyEq v v = true := by
  cases v <;> simp [pyEq]

/-- After a base-device `set_state`, re-diffing the new state against
the same patch finds nothing left to change. -/
theorem diffChanges_after_apply (st patch : StateMap)
    (hnd : (keysOf patch).Nodup) :
    diffChanges (applyPatch st patch) patch = [] := by
  simp only [diffChanges, List.filterMap_eq_nil_iff]
  intro p hp
  by_cases hk : p.1 ∈ keysOf st
  · rw [lookupKey_applyPatch_mem patch st hnd p hp hk]
    simp [pyEq_refl]
  · rw [lookupKey_eq_none _ _ (by rw [keysOf_applyPatch]; exact hk)]

theorem pushHist_nil (maxH : ℕ) (e : HistEntry) : pushHist maxH [] e = [e] := by
  by_cases h : maxH < 1
  · have h0 : maxH = 0 := by omega
    subst h0
    rfl
  · show (if maxH < ([] ++ [e] : List HistEntry).length
          then pyTail maxH ([] ++ [e]) else ([] ++ [e])) = [e]
    rw [if_neg (by simpa using h)]
    rfl

/-- Claim C5: on each `set_state` the history decorator snapshots the
pre-state, calls through, and on success appends exactly one record
precisely when the per-key diff (keys present in both pre-state and
patch with differing values) is non-empty; consequently two
consecutive `set_state` calls with identical values on a base device
produce exactly one history record total. -/
theorem C5_history_records_changes (σ : Type) (dev : InnerDevice σ)
    (maxH now now2 : ℕ) (st : LogSt σ) (patch : StateMap)
    (i n : String) (dt : DeviceType) (caps : List DeviceCapability) :
    ((dev.set_state st.inner patch).2 = false →
        ((LoggingDecorator.set_state dev maxH now st patch).1).history
          = st.history) ∧
    ((dev.set_state st.inner patch).2 = true →
        ((LoggingDecorator.set_state dev maxH now st patch).1).history
          = if diffChanges (dev.get_state st.inner) patch = [] then st.history
            else pushHist maxH st.history
                ⟨now, diffChanges (dev.get_state st.inner) patch⟩) ∧
    (∀ bst : StateMap, (keysOf patch).Nodup → diffChanges bst patch ≠ [] →
        LoggingDecorator.get_history
          ((LoggingDecorator.set_state (baseInner i n dt caps) maxH now2
            ((LoggingDecorator.set_state (baseInner i n dt caps) maxH now
              ⟨bst, []⟩ patch).1) patch).1)
          = [⟨now, diffChanges bst patch⟩]) := by
  refine ⟨?_, ?_, ?_⟩
  · intro hf
    simp [LoggingDecorator.set_state, hf]
  · intro ht
    simp only [LoggingDecorator.set_state, ht, if_pos]
    by_cases hch : diffChanges (dev.get_state st.inner) patch = []
    · simp [LoggingDecorator.add_history_entry, hch]
    · simp [LoggingDecorator.add_history_entry, hch,
            List.isEmpty_iff]
  · intro bst hnd hne
    have h1 : (LoggingDecorator.set_state (baseInner i n dt caps) maxH now
        ⟨bst, []⟩ patch).1
        = ⟨applyPatch bst patch, [⟨now, diffChanges bst patch⟩]⟩ := by
      simp [LoggingDecorator.set_state, BaseDevice.set_state, baseInner,
            LoggingDecorator.add_history_entry, List.isEmpty_iff, hne,
            pushHist_nil]
    rw [h1]
    simp [LoggingDecorator.set_state, BaseDevice.set_state, baseInner,
          LoggingDecorator.add_history_entry, LoggingDecorator.get_history,
          diffChanges_after_apply bst patch hnd]

/-- Witness for C5: toggling a lamp's power twice with the same patch
logs exactly one record, stamped at the first call; and writing `0`
over a stored `False` logs nothing, because Python's `False == 0`
means no value changed. -/
theorem C5_history_records_changes_witness :
    LoggingDecorator.get_history
      ((LoggingDecorator.set_state (baseInner "d1" "Lamp" DeviceType.LIGHT [])
          100 8
          ((LoggingDecorator.set_state
              (baseInner "d1" "Lamp" DeviceType.LIGHT []) 100 7
              ⟨[("power", Val.vBool false)], []⟩
              [("power", Val.vBool true)]).1)
          [("power", Val.vBool true)]).1)
      = [⟨7, diffChanges [("power", Val.vBool false)]
              [("power", Val.vBool true)]⟩] ∧
    ((LoggingDecorator.set_state (baseInner "d1" "Lamp" DeviceType.LIGHT [])
        100 7 ⟨[("power", Val.vBool false)], []⟩
        [("power", Val.vNum 0)]).1).history = [] := by
  refine ⟨(C5_history_records_changes StateMap
      (baseInner "d1" "Lamp" DeviceType.LIGHT []) 100 7 8 ⟨[], []⟩
      [("power", Val.vBool true)] "d1" "Lamp" DeviceType.LIGHT []).2.2
    [("power", Val.vBool false)] (by decide) (by decide), ?_⟩
  have h := (C5_history_records_changes StateMap
      (baseInner "d1" "Lamp" DeviceType.LIGHT []) 100 7 8
      ⟨[("power", Val.vBool false)], []⟩ [("power", Val.vNum 0)]
      "d1" "Lamp" DeviceType.LIGHT []).2.1 rfl
  rw [if_pos (by decide)] at h
  exact h

/-- The most recent `N` records of a history list. -/
def lastN (N : ℕ) (l : List HistEntry) : List HistEntry :=
  l.drop (l.length - N)

theorem lastN_length (N : ℕ) (l : List HistEntry) :
    (lastN N l).length = min N l.length := by
  simp only [lastN, List.length_drop]
  omega

theorem pushHist_lastN (N : ℕ) (hN : 1 ≤ N) (l : List HistEntry)
    (e : HistEntry) : pushHist N (lastN N l) e = lastN N (l ++ [e]) := by
  by_cases h : l.length < N
  · have h0 : l.length - N = 0 := by omega
    have hl : lastN N l = l := by
      rw [lastN, h0, List.drop_zero]
    rw [hl]
    show (if N < (l ++ [e]).length then pyTail N (l ++ [e]) else l ++ [e])
      = lastN N (l ++ [e])
    rw [if_neg (by simp; omega)]
    have h1 : (l ++ [e]).length - N = 0 := by simp; omega
    rw [lastN, h1, List.drop_zero]
  · push_neg at h
    have hlast : (lastN N l).length = N := by rw [lastN_length]; omega
    show (if N < (lastN N l ++ [e]).length then pyTail N (lastN N l ++ [e])
          else lastN N l ++ [e]) = lastN N (l ++ [e])
    rw [if_pos (by simp [hlast])]
    show (if N = 0 then lastN N l ++ [e]
          else (lastN N l ++ [e]).drop ((lastN N l ++ [e]).length - N))
      = lastN N (l ++ [e])
    rw [if_neg (by omega)]
    have hd1 : (lastN N l ++ [e]).length - N = 1 := by simp [hlast]
    rw [hd1]
    have h1 : (lastN N l ++ [e]).drop 1 = l.drop (l.length - N + 1) ++ [e] := by
      rw [List.drop_append_of_le_length (by rw [hlast]; omega), lastN,
          List.drop_drop]
    have h2 : lastN N (l ++ [e]) = l.drop (l.length - N + 1) ++ [e] := by
      have h4 : (l ++ [e]).length - N = l.length - N + 1 := by
        simp only [List.length_append, List.length_singleton]
        omega
      rw [lastN, h4, List.drop_append_of_le_length (by omega)]
    rw [h1, h2]

theorem pushHist_length_le (N : ℕ) (hN : 1 ≤ N) (h : List HistEntry)
    (e : HistEntry) (hle : h.length ≤ N) : (pushHist N h e).length ≤ N := by
  show (if N < (h ++ [e]).length then pyTail N (h ++ [e]) else h ++ [e]).length
    ≤ N
  by_cases hc : N < (h ++ [e]).length
  · rw [if_pos hc]
    show (if N = 0 then h ++ [e]
          else (h ++ [e]).drop ((h ++ [e]).length - N)).length ≤ N
    rw [if_neg (by omega)]
    simp only [List.length_drop, List.length_append, List.length_singleton]
    omega
  · rw [if_neg hc]
    simp only [List.length_append, List.length_singleton] at hc ⊢
    omega

/-- A plain light used to drive the history decorator in the bound
analysis. -/
def toggleDev : InnerDevice StateMap :=
  baseInner "dev-1" "Device" DeviceType.LIGHT [DeviceCapability.POWER]

/-- The patch of the `m`-th distinct-value update (also the state the
device holds after it). -/
def togglePatch (m : ℕ) : StateMap := [("power", Val.vNum (m : ℚ))]

/-- The full change log produced by the first `m` updates. -/
def toggleEntries (m : ℕ) : List HistEntry :=
  (List.range m).map fun j =>
    ⟨j + 1, [⟨"power", Val.vNum (j : ℚ), Val.vNum ((j + 1 : ℕ) : ℚ)⟩]⟩

/-- The history decorator (bound `N`) after `m` successive
distinct-value `set_state` calls, update `j` arriving at time `j`. -/
def runToggle (N : ℕ) : ℕ → LogSt StateMap
  | 0 => ⟨togglePatch 0, []⟩
  | m + 1 =>
    (LoggingDecorator.set_state toggleDev N (m + 1) (runToggle N m)
      (togglePatch (m + 1))).1

theorem toggle_applyPatch (m : ℕ) :
    applyPatch (togglePatch m) (togglePatch (m + 1)) = togglePatch (m + 1) := by
  simp [applyPatch, togglePatch, setKey]

theorem toggle_diffChanges (m : ℕ) :
    diffChanges (togglePatch m) (togglePatch (m + 1))
      = [⟨"power", Val.vNum (m : ℚ), Val.vNum ((m + 1 : ℕ) : ℚ)⟩] := by
  have hne : pyEq (Val.vNum (m : ℚ)) (Val.vNum ((m : ℚ) + 1)) = false := by
    simp only [pyEq, decide_eq_false_iff_not, self_eq_add_right]
    norm_num
  simp [diffChanges, togglePatch, lookupKey, hne]

theorem runToggle_spec (N : ℕ) (hN : 1 ≤ N) (m : ℕ) :
    (runToggle N m).inner = togglePatch m ∧
    (runToggle N m).history = lastN N (toggleEntries m) := by
  induction m with
  | zero => exact ⟨rfl, by simp [runToggle, toggleEntries, lastN]⟩
  | succ m ih =>
    have hstep : runToggle N (m + 1)
        = (LoggingDecorator.set_state toggleDev N (m + 1) (runToggle N m)
            (togglePatch (m + 1))).1 := rfl
    constructor
    · rw [hstep]
      simp [LoggingDecorator.set_state, toggleDev, baseInner,
            BaseDevice.set_state, ih.1, toggle_applyPatch]
    · rw [hstep]
      simp only [LoggingDecorator.set_state, toggleDev, baseInner,
                 BaseDevice.set_state, LoggingDecorator.add_history_entry,
                 ih.1, ih.2, toggle_diffChanges, id_eq, if_true]
      have hlist : toggleEntries m
            ++ [⟨m + 1, [⟨"power", Val.vNum (m : ℚ),
                  Val.vNum ((m + 1 : ℕ) : ℚ)⟩]⟩]
          = toggleEntries (m + 1) := by
        simp [toggleEntries, List.range_succ]
      rw [← hlist, ← pushHist_lastN N hN]
      simp [List.isEmpty_iff]

/-- Claim C6 (amended to bound `N ≥ 1`): the history length never
exceeds `N`, and after `N + k` successful distinct-value updates the
history is exactly the `N` most recent records, oldest discarded
first. -/
theorem C6_history_bound (N k : ℕ) (hN : 1 ≤ N) (hk : 1 ≤ k) :
    (∀ (σ : Type) (dev : InnerDevice σ) (now : ℕ) (st : LogSt σ)
        (patch : StateMap), st.history.length ≤ N →
        ((LoggingDecorator.set_state dev N now st patch).1).history.length
          ≤ N) ∧
    LoggingDecorator.get_history (runToggle N (N + k))
      = lastN N (toggleEntries (N + k)) ∧
    (LoggingDecorator.get_history (runToggle N (N + k))).length = N := by
  refine ⟨?_, ?_, ?_⟩
  · intro σ dev now st patch hlen
    by_cases hok : (dev.set_state st.inner patch).2 = true
    · simp only [LoggingDecorator.set_state, hok, if_true,
                 LoggingDecorator.add_history_entry]
      by_cases hch : (diffChanges (dev.get_state st.inner) patch).isEmpty
      · simp [hch, hlen]
      · simp only [hch, if_false, Bool.false_eq_true]
        exact pushHist_length_le N hN _ _ hlen
    · simp [LoggingDecorator.set_state, hok, hlen]
  · exact (runToggle_spec N hN (N + k)).2
  · rw [LoggingDecorator.get_history, (runToggle_spec N hN (N + k)).2,
        lastN_length]
    simp only [toggleEntries, List.length_map, List.length_range]
    omega

/-- Witness for C6 at `N = 3`, `k = 2`: after five distinct updates the
log holds exactly three records. -/
theorem C6_history_bound_witness :
    (LoggingDecorator.get_history (runToggle 3 5)).length = 3 :=
  (C6_history_bound 3 2 (by decide) (by decide)).2.2

/-- Counterexample for C6 exactly as stated (all bounds `N`): with
`max_history = 0` the truncation slice `history[-0:]` is the whole
list, so after `0 + 1` successful distinct-value updates the history
holds one record, exceeding the bound. -/
theorem C6_history_bound_counterexample :
    (LoggingDecorator.get_history (runToggle 0 1)).length = 1 := by
  decide

/-- Claim C7: the notification decorator publishes zero events when
the inner `set_state` fails, and on success publishes exactly one
`DEVICE_STATE_CHANGED` event precisely when the predicate on
(pre-state, post-state) passes (defaulting to always-notify when
absent), the event carrying the entity's id as source and a payload
with the name, type, old state and new state. -/
theorem C7_notification_publishes (σ : Type) (dev : InnerDevice σ)
    (crit : Option (StateMap → StateMap → Bool)) (now : ℕ) (s : σ)
    (patch : StateMap) (s2 : σ) (old new2 : StateMap) :
    ((dev.set_state s patch).2 = false →
        (NotificationDecorator.set_state dev crit now s patch).2.2 = []) ∧
    ((dev.set_state s patch).2 = true →
        (NotificationDecorator.set_state dev crit now s patch).2.2
          = if NotificationDecorator.should_notify crit (dev.get_state s)
                (dev.get_state (dev.set_state s patch).1)
            then [NotificationDecorator.publish_state_change_event dev
                    (dev.set_state s patch).1 now (dev.get_state s)
                    (dev.get_state (dev.set_state s patch).1)]
            else []) ∧
    (NotificationDecorator.set_state dev crit now s patch).2.2.length ≤ 1 ∧
    (∀ o n2 : StateMap, NotificationDecorator.should_notify none o n2 = true) ∧
    (NotificationDecorator.publish_state_change_event dev s2 now old
        new2).event_type = EventType.DEVICE_STATE_CHANGED ∧
    (NotificationDecorator.publish_state_change_event dev s2 now old
        new2).source = dev.get_id s2 ∧
    (NotificationDecorator.publish_state_change_event dev s2 now old
        new2).timestamp = now ∧
    (NotificationDecorator.publish_state_change_event dev s2 now old new2).data
      = [("device_name", EData.eStr (NotificationDecorator.get_name dev s2)),
         ("device_type", EData.eStr (NotificationDecorator.deviceTypeStr
            (dev.get_device_type s2))),
         ("old_state", EData.eMap old),
         ("new_state", EData.eMap new2)] := by
  refine ⟨?_, ?_, ?_, fun o n2 => rfl, rfl, rfl, rfl, rfl⟩
  · intro hf
    simp [NotificationDecorator.set_state, hf]
  · intro ht
    by_cases hs : NotificationDecorator.should_notify crit (dev.get_state s)
        (dev.get_state (dev.set_state s patch).1) = true
    · simp [NotificationDecorator.set_state, ht, hs]
    · simp [NotificationDecorator.set_state, ht, hs]
  · by_cases hok : (dev.set_state s patch).2 = true
    · by_cases hs : NotificationDecorator.should_notify crit (dev.get_state s)
          (dev.get_state (dev.set_state s patch).1) = true
      · simp [NotificationDecorator.set_state, hok, hs]
      · simp [NotificationDecorator.set_state, hok, hs]
    · simp [NotificationDecorator.set_state, hok]

/-- Witness for C7: turning a lamp on with no criteria publishes
exactly the one state-change event; a rejecting device publishes
none. -/
theorem C7_notification_publishes_witness :
    (NotificationDecorator.set_state (baseInner "d1" "Lamp" DeviceType.LIGHT [])
        none 5 [("power", Val.vBool false)] [("power", Val.vBool true)]).2.2
      = [NotificationDecorator.publish_state_change_event
          (baseInner "d1" "Lamp" DeviceType.LIGHT [])
          (applyPatch [("power", Val.vBool false)] [("power", Val.vBool true)])
          5 [("power", Val.vBool false)]
          (applyPatch [("power", Val.vBool false)]
            [("power", Val.vBool true)])] ∧
    (NotificationDecorator.set_state
        ⟨fun _ => "r1", fun _ => "Rejecting", fun _ => DeviceType.SENSOR,
         fun _ => [], id, fun st _ => (st, false)⟩
        none 5 ([] : StateMap) [("power", Val.vBool true)]).2.2 = [] :=
  ⟨by simpa using
      (C7_notification_publishes StateMap
        (baseInner "d1" "Lamp" DeviceType.LIGHT []) none 5
        [("power", Val.vBool false)] [("power", Val.vBool true)]
        [] [] []).2.1 rfl,
   (C7_notification_publishes StateMap
      ⟨fun _ => "r1", fun _ => "Rejecting", fun _ => DeviceType.SENSOR,
       fun _ => [], id, fun st _ => (st, false)⟩
      none 5 [] [("power", Val.vBool true)] [] [] []).1 rfl⟩

theorem foldlMin_mem (x : SchedEntry) (xs : List SchedEntry) :
    xs.foldl (fun b s => if s.time < b.time then s else b) x ∈ x :: xs := by
  induction xs generalizing x with
  | nil => simp
  | cons y ys ih =>
    simp only [List.foldl_cons]
    by_cases h : y.time < x.time
    · rw [if_pos h]
      exact List.mem_cons_of_mem x (ih y)
    · rw [if_neg h]
      rcases List.mem_cons.mp (ih x) with h3 | h3
      · rw [h3]
        exact List.mem_cons_self _ _
      · exact List.mem_cons_of_mem x (List.mem_cons_of_mem y h3)

theorem foldlMin_le (x : SchedEntry) (xs : List SchedEntry) :
    ∀ e ∈ x :: xs,
      (xs.foldl (fun b s => if s.time < b.time then s else b) x).time
        ≤ e.time := by
  induction xs generalizing x with
  | nil =>
    intro e he
    rcases List.mem_cons.mp he with h | h
    · rw [h]
      exact le_refl _
    · cases h
  | cons y ys ih =>
    intro e he
    simp only [List.foldl_cons]
    by_cases h : y.time < x.time
    · rw [if_pos h]
      rcases List.mem_cons.mp he with h1 | h1
      · rw [h1]
        exact le_trans (ih y y (List.mem_cons_self y ys)) (le_of_lt h)
      · exact ih y e h1
    · rw [if_neg h]
      rcases List.mem_cons.mp he with h1 | h1
      · exact ih x e (h1 ▸ List.mem_cons_self x ys)
      · rcases List.mem_cons.mp h1 with h2 | h2
        · rw [h2]
          exact le_trans (ih x x (List.mem_cons_self x ys)) (not_lt.mp h)
        · exact ih x e (List.mem_cons_of_mem x h2)

theorem next_scheduled_action_spec (now : ℕ) (scheds : List SchedEntry)
    (e : SchedEntry)
    (h : TimerDecorator.next_scheduled_action now scheds = some e) :
    e ∈ scheds ∧ now < e.time ∧
      ∀ e2 ∈ scheds, now < e2.time → e.time ≤ e2.time := by
  cases scheds with
  | nil => exact Option.noConfusion h
  | cons a rest =>
    have h0 : TimerDecorator.next_scheduled_action now (a :: rest)
        = match (a :: rest).filter (fun s => now < s.time) with
          | [] => none
          | x :: xs =>
            some (xs.foldl (fun b s => if s.time < b.time then s else b) x) :=
      rfl
    rw [h0] at h
    rcases hf : (a :: rest).filter (fun s => now < s.time) with _ | ⟨x, xs⟩
    · rw [hf] at h
      exact Option.noConfusion h
    · rw [hf] at h
      injection h with h2
      have hmem : e ∈ (a :: rest).filter (fun s => now < s.time) := by
        rw [hf]
        exact h2 ▸ foldlMin_mem x xs
      have hm := List.mem_filter.mp hmem
      refine ⟨hm.1, by simpa using hm.2, ?_⟩
      intro e2 he2 ht2
      have he2f : e2 ∈ x :: xs := by
        rw [← hf]
        exact List.mem_filter.mpr ⟨he2, by simpa using ht2⟩
      have h3 := foldlMin_le x xs e2 he2f
      rw [h2] at h3
      exact h3

theorem next_scheduled_action_none (now : ℕ) (scheds : List SchedEntry)
    (h : ∀ e ∈ scheds, e.time ≤ now) :
    TimerDecorator.next_scheduled_action now scheds = none := by
  cases scheds with
  | nil => rfl
  | cons a rest =>
    have h0 : TimerDecorator.next_scheduled_action now (a :: rest)
        = match (a :: rest).filter (fun s => now < s.time) with
          | [] => none
          | x :: xs =>
            some (xs.foldl (fun b s => if s.time < b.time then s else b) x) :=
      rfl
    rw [h0]
    have hf : (a :: rest).filter (fun s => now < s.time) = [] := by
      rw [List.filter_eq_nil_iff]
      intro e he
      simpa using not_lt.mpr (h e he)
    rw [hf]

/-- Modelled from the spec: a boolean "has pending schedule" field
would report whether some entry's trigger time is still strictly in
the future. -/
def hasPendingSchedule (now : ℕ) (scheds : List SchedEntry) : Bool :=
  scheds.any fun s => now < s.time

/-- Claim C8 (amended: the added boolean `has_schedules` reports
whether any schedule entries exist at all, already-past entries
included, not whether a pending future one exists): `schedule_action`
returns `false` exactly when the time is not strictly in the future
(otherwise appending the entry and returning `true`), and `get_state`
augments the inner state with that boolean and with the entry of
minimal trigger time among the still-future entries (`none` when
every entry is past), past entries being excluded from consideration
but cleared only by `cancel_all_schedules`. -/
theorem C8_timer_schedule (σ : Type) (dev : InnerDevice σ) (now time : ℕ)
    (scheds : List SchedEntry) (patch : StateMap) (st : TimerSt σ) :
    (time ≤ now →
        TimerDecorator.schedule_action now scheds time patch
          = (scheds, false)) ∧
    (now < time →
        TimerDecorator.schedule_action now scheds time patch
          = (scheds ++ [⟨time, patch⟩], true)) ∧
    ((TimerDecorator.schedule_action now scheds time patch).2 = false
        ↔ time ≤ now) ∧
    ((TimerDecorator.get_state dev now st).has_schedules = true
        ↔ st.schedules ≠ []) ∧
    (TimerDecorator.get_state dev now st).base = dev.get_state st.inner ∧
    (TimerDecorator.get_state dev now st).next_action
      = TimerDecorator.next_scheduled_action now st.schedules ∧
    (∀ e, TimerDecorator.next_scheduled_action now scheds = some e →
        e ∈ scheds ∧ now < e.time ∧
          ∀ e2 ∈ scheds, now < e2.time → e.time ≤ e2.time) ∧
    ((∀ e ∈ scheds, e.time ≤ now) →
        TimerDecorator.next_scheduled_action now scheds = none) ∧
    TimerDecorator.cancel_all_schedules = ([] : List SchedEntry) := by
  refine ⟨?_, ?_, ?_, ?_, rfl, rfl,
    fun e he => next_scheduled_action_spec now scheds e he,
    next_scheduled_action_none now scheds, rfl⟩
  · intro h
    simp [TimerDecorator.schedule_action, h]
  · intro h
    simp [TimerDecorator.schedule_action, Nat.not_le.mpr h]
  · by_cases h : time ≤ now
    · simp [TimerDecorator.schedule_action, h]
    · simp [TimerDecorator.schedule_action, h]
  · simp [TimerDecorator.get_state, List.length_pos]

/-- Witness for C8: a past time is rejected, a future one appended;
with entries at times 5, 3 and 7 and clock 2 the next action is the
time-3 entry; with the single entry at time 5 already past at clock
10 there is no next action. -/
theorem C8_timer_schedule_witness :
    TimerDecorator.schedule_action 10 [] 5 [] = ([], false) ∧
    TimerDecorator.schedule_action 0 [] 5 [] = ([⟨5, []⟩], true) ∧
    ((⟨3, []⟩ : SchedEntry) ∈ [(⟨5, []⟩ : SchedEntry), ⟨3, []⟩, ⟨7, []⟩] ∧
      2 < (⟨3, []⟩ : SchedEntry).time ∧
      ∀ e2 ∈ [(⟨5, []⟩ : SchedEntry), ⟨3, []⟩, ⟨7, []⟩], 2 < e2.time →
        (⟨3, []⟩ : SchedEntry).time ≤ e2.time) ∧
    TimerDecorator.next_scheduled_action 10 [⟨5, []⟩] = none :=
  ⟨(C8_timer_schedule StateMap (baseInner "d" "D" DeviceType.LIGHT []) 10 5
      [] [] ⟨[], []⟩).1 (by decide),
   (C8_timer_schedule StateMap (baseInner "d" "D" DeviceType.LIGHT []) 0 5
      [] [] ⟨[], []⟩).2.1 (by decide),
   (C8_timer_schedule StateMap (baseInner "d" "D" DeviceType.LIGHT []) 2 5
      [⟨5, []⟩, ⟨3, []⟩, ⟨7, []⟩] [] ⟨[], []⟩).2.2.2.2.2.2.1 ⟨3, []⟩
      (by decide),
   (C8_timer_schedule StateMap (baseInner "d" "D" DeviceType.LIGHT []) 10 5
      [⟨5, []⟩] [] ⟨[], []⟩).2.2.2.2.2.2.2.1 (by decide)⟩

/-- Counterexample for C8 as stated: an entry accepted at clock 0 for
time 5 is already past at clock 10; the decorator's boolean field is
then still `true` although no pending (future) schedule exists and
the next-action field is `none`, so the boolean is not a "has pending
schedule" flag. -/
theorem C8_timer_schedule_counterexample :
    TimerDecorator.schedule_action 0 [] 5 [("power", Val.vBool true)]
      = ([⟨5, [("power", Val.vBool true)]⟩], true) ∧
    (TimerDecorator.get_state (baseInner "d1" "Lamp" DeviceType.LIGHT []) 10
        ⟨[], [⟨5, [("power", Val.vBool true)]⟩]⟩).has_schedules = true ∧
    hasPendingSchedule 10 [⟨5, [("power", Val.vBool true)]⟩] = false ∧
    (TimerDecorator.get_state (baseInner "d1" "Lamp" DeviceType.LIGHT []) 10
        ⟨[], [⟨5, [("power", Val.vBool true)]⟩]⟩).has_schedules
      ≠ hasPendingSchedule 10 [⟨5, [("power", Val.vBool true)]⟩] ∧
    (TimerDecorator.get_state (baseInner "d1" "Lamp" DeviceType.LIGHT []) 10
        ⟨[], [⟨5, [("power", Val.vBool true)]⟩]⟩).next_action = none := by
  refine ⟨by decide, by decide, by decide, by decide, by decide⟩

end SmartHome
